import Mathlib

/-!
Verification of the environmental-scoring pipeline of
`src/analytics_engine.py` (`calculate_environmental_scores`).

The pipeline is a pure batch transform over two geospatial tables
(roads, trees).  We shallowly embed it over lists of records.  Machine
floats are modelled by `FVal`: a rational number, or one of the IEEE
special values NaN / +inf / -inf that pandas float division by zero
produces.  The geometric library operations (shapely / GEOS buffering,
length, containment; pyproj reprojection) and the two transcendental
library functions (`np.pi`, `np.log1p`) are not part of the repository
source, so they are abstracted into a `GeoOps` record of parameters;
theorems assume only the properties of those parameters that the claims
depend on (for example `0 < pi`, `log1p 0 = 0`, strict monotonicity of
`log1p`), and witnesses instantiate them concretely.
-/

/-- IEEE-style value of a pandas float cell: a finite rational, NaN,
+infinity or -infinity. -/
inductive FVal where
  | num (q : ℚ)
  | nan
  | inf
  | ninf
deriving DecidableEq, Repr

/-- Float division as pandas performs it elementwise: division by zero
yields NaN when the numerator is zero, and a signed infinity otherwise. -/
def fdiv (a b : ℚ) : FVal :=
  if b = 0 then
    if a = 0 then FVal.nan else if 0 < a then FVal.inf else FVal.ninf
  else FVal.num (a / b)

/-- Strict order on float cells used by `rank`: NaN compares false with
everything, -inf below all numbers, +inf above all numbers. -/
def fvalLt : FVal → FVal → Bool
  | FVal.num a, FVal.num b => decide (a < b)
  | FVal.num _, FVal.inf => true
  | FVal.ninf, FVal.num _ => true
  | FVal.ninf, FVal.inf => true
  | _, _ => false

/-- Scalar multiplication on a float cell (weight times a column value).
Multiplying an infinity by zero yields NaN, as in IEEE arithmetic. -/
def fmul (c : ℚ) : FVal → FVal
  | FVal.num q => FVal.num (c * q)
  | FVal.nan => FVal.nan
  | FVal.inf => if 0 < c then FVal.inf else if c < 0 then FVal.ninf else FVal.nan
  | FVal.ninf => if 0 < c then FVal.ninf else if c < 0 then FVal.inf else FVal.nan

/-- Addition of float cells; NaN propagates, opposite infinities give NaN. -/
def fadd : FVal → FVal → FVal
  | FVal.nan, _ => FVal.nan
  | _, FVal.nan => FVal.nan
  | FVal.num a, FVal.num b => FVal.num (a + b)
  | FVal.num _, FVal.inf => FVal.inf
  | FVal.num _, FVal.ninf => FVal.ninf
  | FVal.inf, FVal.num _ => FVal.inf
  | FVal.inf, FVal.inf => FVal.inf
  | FVal.inf, FVal.ninf => FVal.nan
  | FVal.ninf, FVal.num _ => FVal.ninf
  | FVal.ninf, FVal.inf => FVal.nan
  | FVal.ninf, FVal.ninf => FVal.ninf

/-- Pandas `Series.rank(pct=True)` (method `average`, `na_option`
`keep`) of the cell `v` within the column `vs`: NaN keeps NaN; otherwise
the average rank of the tied group of `v` among the non-NaN cells,
divided by the number of non-NaN cells. -/
def rankPct (vs : List FVal) (v : FVal) : FVal :=
  if v = FVal.nan then FVal.nan
  else
    FVal.num
      (((((vs.filter (fun w => decide (w ≠ FVal.nan))).filter
            (fun w => fvalLt w v)).length : ℚ) +
        ((((vs.filter (fun w => decide (w ≠ FVal.nan))).filter
            (fun w => decide (w = v))).length : ℚ) + 1) / 2) /
        ((vs.filter (fun w => decide (w ≠ FVal.nan))).length : ℚ))

/-- A point geometry (tree location) in planar coordinates. -/
def PtGeom : Type := ℚ × ℚ

/-- A linestring geometry (road segment) as a list of planar vertices. -/
def SegGeom : Type := List (ℚ × ℚ)

instance : DecidableEq PtGeom := by unfold PtGeom; infer_instance

instance : DecidableEq SegGeom := by unfold SegGeom; infer_instance

/-- A row of the trees GeoDataFrame, with the columns
`calculate_environmental_scores` reads. -/
structure TreeRow where
  canopy_dia_m : ℚ
  CO2_sequestered_kg : ℚ
  botanical_name : String
  geometry : PtGeom
deriving DecidableEq

/-- A row of the roads GeoDataFrame. -/
structure RoadRow where
  segment_id : ℤ
  geometry : SegGeom
deriving DecidableEq

/-- The trees GeoDataFrame: a CRS tag, the input rows, and the derived
`canopy_area_sq_m` column, `none` until line 35 of the source assigns
it (the assignment mutates whichever frame the local name refers to). -/
structure TreesDF where
  crs : String
  rows : List TreeRow
  canopy_area_sq_m : Option (List ℚ) := none
deriving DecidableEq

/-- The roads GeoDataFrame: a CRS tag and the road rows. -/
structure RoadsDF where
  crs : String
  rows : List RoadRow
deriving DecidableEq

/-- Abstracted geometric and numeric library operations used by the
pipeline but implemented outside the repository (GEOS, pyproj, numpy):
`pi` is `np.pi`; `log1p` is `np.log1p` on the (integral) species count;
`segLength` is shapely `geometry.length`; `bufferArea` is the area of
`geometry.buffer(d)`; `within` is the `sjoin` predicate testing whether
a tree point lies within a road's buffer of radius `d`; `reproject`
is `to_crs`, mapping a point from one CRS to another. -/
structure GeoOps where
  pi : ℚ
  log1p : ℕ → ℚ
  segLength : SegGeom → ℚ
  bufferArea : SegGeom → ℤ → ℚ
  within : PtGeom → SegGeom → ℤ → Bool
  reproject : PtGeom → String → String → PtGeom

/-- GeoPandas `to_crs`: reproject every tree point into the target CRS
and tag the frame with it (a new frame; the source frame is untouched). -/
def to_crs (ops : GeoOps) (t : TreesDF) (target : String) : TreesDF :=
  { crs := target
    rows := t.rows.map (fun r => { r with geometry := ops.reproject r.geometry t.crs target })
    canopy_area_sq_m := t.canopy_area_sq_m }

/-- A row of the returned frame: the road columns, the merged (and
zero-filled) aggregates, the raw scores, the percentile-rank normalised
scores, and the two composite scores. -/
structure ScoredRow where
  segment_id : ℤ
  geometry : SegGeom
  canopy_area_sq_m : ℚ
  s_co2_total : ℚ
  s_bio_count : ℕ
  s_canopy : FVal
  s_co2 : FVal
  s_bio : FVal
  s_canopy_norm : FVal
  s_co2_norm : FVal
  s_bio_norm : FVal
  static_eqs : FVal
  serenity_score : FVal
deriving DecidableEq

/-- Everything observable about one call of
`calculate_environmental_scores`: the returned frame's rows, the
messages printed, and the state of the two caller-supplied frames when
the call returns (the source mutates `trees_gdf` in place at line 35
unless the CRS mismatch rebound the local name to a fresh frame). -/
structure PipelineResult where
  rows : List ScoredRow
  messages : List String
  roads_after : RoadsDF
  trees_after : TreesDF
deriving DecidableEq

/-- Step 3 of the source: `gpd.sjoin(trees_gdf, road_buffers, how =
inner, predicate = within)` — every (tree, segment) pair whose tree
point falls within the segment's buffer, carrying the tree columns,
the derived canopy area and the buffer's `segment_id`. -/
def sjoinPairs (ops : GeoOps) (trees : List TreeRow) (roads : List RoadRow)
    (buf : ℤ) : List (TreeRow × ℤ) :=
  trees.flatMap (fun t =>
    (roads.filter (fun r => ops.within t.geometry r.geometry buf)).map
      (fun r => (t, r.segment_id)))

/-- Step 4, aggregate `canopy_area_sq_m`: sum of the joined trees'
derived canopy area (`np.pi * (d / 2) ** 2`) over one segment id. -/
def aggCanopy (ops : GeoOps) (joined : List (TreeRow × ℤ)) (sid : ℤ) : ℚ :=
  (((joined.filter (fun p => decide (p.2 = sid))).map
    (fun p => ops.pi * (p.1.canopy_dia_m / 2) ^ 2)).sum)

/-- Step 4, aggregate `s_co2_total`: sum of `CO2_sequestered_kg` over
one segment id. -/
def aggCO2 (joined : List (TreeRow × ℤ)) (sid : ℤ) : ℚ :=
  (((joined.filter (fun p => decide (p.2 = sid))).map
    (fun p => p.1.CO2_sequestered_kg)).sum)

/-- Step 4, aggregate `s_bio_count`: number of distinct
`botanical_name` values over one segment id. -/
def aggBio (joined : List (TreeRow × ℤ)) (sid : ℤ) : ℕ :=
  (((joined.filter (fun p => decide (p.2 = sid))).map
    (fun p => p.1.botanical_name)).dedup).length

/-- Step 5: the left merge followed by `fillna(0)` gives each road row
its aggregates, or zeros when the segment id grouped no joined record. -/
def mergedAgg (ops : GeoOps) (joined : List (TreeRow × ℤ)) (sid : ℤ) : ℚ × ℚ × ℕ :=
  if joined.any (fun p => decide (p.2 = sid)) then
    (aggCanopy ops joined sid, aggCO2 joined sid, aggBio joined sid)
  else (0, 0, 0)

/-- Steps 1–6 for one road row: buffer area, merged aggregates and the
three raw scores (the two divisions are pandas float divisions). -/
def rawRow (ops : GeoOps) (joined : List (TreeRow × ℤ)) (buf : ℤ)
    (r : RoadRow) : ScoredRow :=
  let a := mergedAgg ops joined r.segment_id
  { segment_id := r.segment_id
    geometry := r.geometry
    canopy_area_sq_m := a.1
    s_co2_total := a.2.1
    s_bio_count := a.2.2
    s_canopy := fdiv a.1 (ops.bufferArea r.geometry buf)
    s_co2 := fdiv a.2.1 (ops.segLength r.geometry)
    s_bio := FVal.num (ops.log1p a.2.2)
    s_canopy_norm := FVal.nan
    s_co2_norm := FVal.nan
    s_bio_norm := FVal.nan
    static_eqs := FVal.nan
    serenity_score := FVal.nan }

/-- Steps 7–8 for one row, given the three full raw columns: the
percentile-rank normalised scores and the two composite scores. -/
def finishRow (canopyCol co2Col bioCol : List FVal) (row : ScoredRow) : ScoredRow :=
  let cN := rankPct canopyCol row.s_canopy
  let oN := rankPct co2Col row.s_co2
  let bN := rankPct bioCol row.s_bio
  { row with
    s_canopy_norm := cN
    s_co2_norm := oN
    s_bio_norm := bN
    static_eqs := fadd (fadd (fmul (1/2) cN) (fmul (3/10) oN)) (fmul (1/5) bN)
    serenity_score := fadd (fmul (7/10) cN) (fmul (3/10) bN) }

/-- The scored rows produced from a roads frame and an (already
CRS-aligned) trees row list. -/
def scoreRows (ops : GeoOps) (roads : RoadsDF) (trees : List TreeRow)
    (buf : ℤ) : List ScoredRow :=
  let joined := sjoinPairs ops trees roads.rows buf
  let raws := roads.rows.map (rawRow ops joined buf)
  let canopyCol := raws.map (fun r => r.s_canopy)
  let co2Col := raws.map (fun r => r.s_co2)
  let bioCol := raws.map (fun r => r.s_bio)
  raws.map (finishRow canopyCol co2Col bioCol)

/-- The trees frame the pipeline actually works on after the CRS check
at lines 25–27 of the source: the caller's frame when the CRS tags
agree, a freshly reprojected frame otherwise. -/
def workingTrees (ops : GeoOps) (roads_gdf : RoadsDF) (trees_gdf : TreesDF) : TreesDF :=
  if roads_gdf.crs ≠ trees_gdf.crs then to_crs ops trees_gdf roads_gdf.crs else trees_gdf

/-- Shallow embedding of `calculate_environmental_scores` of
`src/analytics_engine.py`: CRS alignment with a printed warning, per-road
buffering, per-tree canopy area (assigned in place on the working trees
frame), spatial join, aggregation, left merge with zero fill, raw
scores, percentile-rank normalisation and the two composite scores.
The result also records the post-call state of the caller's frames. -/
def calculate_environmental_scores (ops : GeoOps) (roads_gdf : RoadsDF)
    (trees_gdf : TreesDF) (buffer_size_meters : ℤ := 10) : PipelineResult :=
  let msgs0 := ["Performing vectorized analysis with a " ++
    toString buffer_size_meters ++ "-meter buffer..."]
  let mismatch := roads_gdf.crs ≠ trees_gdf.crs
  let working : TreesDF := workingTrees ops roads_gdf trees_gdf
  let msgs := if mismatch then
    msgs0 ++ ["Warning: CRS mismatch. Re-projecting trees to match roads CRS."]
    else msgs0
  let canopyCol := working.rows.map (fun t => ops.pi * (t.canopy_dia_m / 2) ^ 2)
  let workingMut : TreesDF := { working with canopy_area_sq_m := some canopyCol }
  { rows := scoreRows ops roads_gdf workingMut.rows buffer_size_meters
    messages := msgs
    roads_after := roads_gdf
    trees_after := if mismatch then trees_gdf else workingMut }

/-! ## Derived definitions used by the verification -/

/-- The raw rows of one `scoreRows` run (steps 1–6), before the
normalisation pass. -/
def rawsOf (ops : GeoOps) (roads : RoadsDF) (trees : List TreeRow)
    (buf : ℤ) : List ScoredRow :=
  roads.rows.map (rawRow ops (sjoinPairs ops trees roads.rows buf) buf)

/-- Percentile rank of `x` within the rational column `xs`, written as
the specification describes it: the number of values strictly below `x`
plus the average rank contribution of the tied group of `x`, divided by
the column length (so for an untied `x` it is the fraction of values
that are `≤ x`). -/
def pctRankQ (xs : List ℚ) (x : ℚ) : ℚ :=
  (((xs.filter (fun y => decide (y < x))).length : ℚ) +
    (((xs.filter (fun y => decide (y = x))).length : ℚ) + 1) / 2) / (xs.length : ℚ)

/-- The rational value underlying `s_canopy` when the buffer area is
nonzero: total joined canopy area over buffer area. -/
def canopyKernel (ops : GeoOps) (joined : List (TreeRow × ℤ)) (buf : ℤ)
    (r : RoadRow) : ℚ :=
  (mergedAgg ops joined r.segment_id).1 / ops.bufferArea r.geometry buf

/-- The rational value underlying `s_co2` when the geometry length is
nonzero: total joined CO2 over segment length. -/
def co2Kernel (ops : GeoOps) (joined : List (TreeRow × ℤ)) (r : RoadRow) : ℚ :=
  (mergedAgg ops joined r.segment_id).2.1 / ops.segLength r.geometry

/-- The rational value of `s_bio`: `log1p` of the distinct-species count. -/
def bioKernel (ops : GeoOps) (joined : List (TreeRow × ℤ)) (r : RoadRow) : ℚ :=
  ops.log1p (mergedAgg ops joined r.segment_id).2.2

/-- The column pair (`raw`, `raw_norm`) satisfies the specification of
percentile-rank normalisation: the raw column is entirely numeric, the
normalised column is the tie-averaged percentile-rank fraction of the
raw column, all normalised values lie in `(0, 1]`, a uniquely maximal
raw value is normalised to exactly `1`, and normalisation is monotone
in the raw values. -/
def percentileNormalized (raws norms : List FVal) : Prop :=
  ∃ qs : List ℚ,
    raws = qs.map FVal.num ∧
    norms = qs.map (fun q => FVal.num (pctRankQ qs q)) ∧
    (∀ q ∈ qs, 0 < pctRankQ qs q ∧ pctRankQ qs q ≤ 1) ∧
    (∀ q ∈ qs, (∀ p ∈ qs, p ≤ q) →
      (qs.filter (fun y => decide (y = q))).length = 1 → pctRankQ qs q = 1) ∧
    (∀ p ∈ qs, ∀ q ∈ qs, p ≤ q → pctRankQ qs p ≤ pctRankQ qs q)

/-- Whether a float cell holds a finite number (as opposed to NaN or a
signed infinity). -/
def isNum : FVal → Bool
  | FVal.num _ => true
  | _ => false

/-- A concrete instantiation of the abstract geometry/numeric library
operations, used to evaluate the pipeline on closed inputs: a segment's
linestring is encoded as a single vertex `(length, buffer area)` and a
tree point joins a segment when their first coordinates agree. -/
def wOps : GeoOps :=
  ⟨3, fun n => (n : ℚ), fun g => (List.headD g (0, 0)).1,
    fun g _ => (List.headD g (0, 0)).2,
    fun p g _ => decide (p.1 = (List.headD g (0, 0)).1), fun p _ _ => p⟩

/-- Concrete roads frame: two segments with nonzero length and buffer
area. -/
def wRoads : RoadsDF := ⟨"EPSG:32643", [⟨1, [(100, 2000)]⟩, ⟨2, [(200, 1000)]⟩]⟩

/-- Concrete trees frame in the same CRS as `wRoads`; both trees join
segment 1 only under `wOps.within`. -/
def wTrees : TreesDF :=
  ⟨"EPSG:32643", [⟨10, 50, "Ficus religiosa", (100, 2)⟩,
    ⟨8, 30, "Azadirachta indica", (100, 5)⟩], none⟩

/-- Concrete roads frame with one degenerate segment: zero length and
zero buffer area. -/
def zRoads : RoadsDF := ⟨"EPSG:32643", [⟨1, [(0, 0)]⟩]⟩

/-- Concrete trees frame whose single tree joins no segment of
`zRoads`. -/
def zTrees : TreesDF := ⟨"EPSG:32643", [⟨0, 50, "Ficus religiosa", (5, 0)⟩], none⟩

/-- The rational value of a segment's normalised canopy score when no
raw score in its column is NaN. -/
def canopyNormQ (ops : GeoOps) (roads : RoadsDF) (trees : List TreeRow)
    (buf : ℤ) (r : RoadRow) : ℚ :=
  pctRankQ (roads.rows.map (canopyKernel ops (sjoinPairs ops trees roads.rows buf) buf))
    (canopyKernel ops (sjoinPairs ops trees roads.rows buf) buf r)

/-- The rational value of a segment's normalised CO2 score when no raw
score in its column is NaN. -/
def co2NormQ (ops : GeoOps) (roads : RoadsDF) (trees : List TreeRow)
    (buf : ℤ) (r : RoadRow) : ℚ :=
  pctRankQ (roads.rows.map (co2Kernel ops (sjoinPairs ops trees roads.rows buf)))
    (co2Kernel ops (sjoinPairs ops trees roads.rows buf) r)

/-- The rational value of a segment's normalised biodiversity score. -/
def bioNormQ (ops : GeoOps) (roads : RoadsDF) (trees : List TreeRow)
    (buf : ℤ) (r : RoadRow) : ℚ :=
  pctRankQ (roads.rows.map (bioKernel ops (sjoinPairs ops trees roads.rows buf)))
    (bioKernel ops (sjoinPairs ops trees roads.rows buf) r)

/-- What the specification asserts of one output row's composite scores,
for the normalised score values `a`, `b`, `c` of that row: the
composites are exactly the fixed weighted sums, and both lie in
`(0, 1]`. -/
def compositeSpec (a b c : ℚ) (row : ScoredRow) : Prop :=
  row.s_canopy_norm = FVal.num a ∧
  row.s_co2_norm = FVal.num b ∧
  row.s_bio_norm = FVal.num c ∧
  row.static_eqs = FVal.num (1/2 * a + 3/10 * b + 1/5 * c) ∧
  row.serenity_score = FVal.num (7/10 * a + 3/10 * c) ∧
  0 < 1/2 * a + 3/10 * b + 1/5 * c ∧ 1/2 * a + 3/10 * b + 1/5 * c ≤ 1 ∧
  0 < 7/10 * a + 3/10 * c ∧ 7/10 * a + 3/10 * c ≤ 1

/-- Concrete trees frame with a negative canopy diameter, in the same
CRS as `wRoads`; its tree joins segment 1. -/
def nTrees : TreesDF := ⟨"EPSG:32643", [⟨-10, 50, "Ficus religiosa", (100, 2)⟩], none⟩

/-- Concrete trees frame in a different CRS from `wRoads`. -/
def mTrees : TreesDF := ⟨"EPSG:4326", [⟨10, 50, "Ficus religiosa", (100, 2)⟩], none⟩

/-! ## Lemmas about the embedded operations -/

lemma fdiv_of_ne_zero (a b : ℚ) (hb : b ≠ 0) : fdiv a b = FVal.num (a / b) := by
  simp [fdiv, hb]

lemma fdiv_zero_zero : fdiv 0 0 = FVal.nan := by simp [fdiv]

lemma finishRow_segment_id (c o b : List FVal) (r : ScoredRow) :
    (finishRow c o b r).segment_id = r.segment_id := rfl

lemma finishRow_s_canopy (c o b : List FVal) (r : ScoredRow) :
    (finishRow c o b r).s_canopy = r.s_canopy := rfl

lemma finishRow_s_co2 (c o b : List FVal) (r : ScoredRow) :
    (finishRow c o b r).s_co2 = r.s_co2 := rfl

lemma finishRow_s_bio (c o b : List FVal) (r : ScoredRow) :
    (finishRow c o b r).s_bio = r.s_bio := rfl

lemma finishRow_s_canopy_norm (c o b : List FVal) (r : ScoredRow) :
    (finishRow c o b r).s_canopy_norm = rankPct c r.s_canopy := rfl

lemma finishRow_s_co2_norm (c o b : List FVal) (r : ScoredRow) :
    (finishRow c o b r).s_co2_norm = rankPct o r.s_co2 := rfl

lemma finishRow_s_bio_norm (c o b : List FVal) (r : ScoredRow) :
    (finishRow c o b r).s_bio_norm = rankPct b r.s_bio := rfl

lemma scoreRows_eq (ops : GeoOps) (roads : RoadsDF) (trees : List TreeRow) (buf : ℤ) :
    scoreRows ops roads trees buf =
      (rawsOf ops roads trees buf).map
        (finishRow ((rawsOf ops roads trees buf).map (fun r => r.s_canopy))
          ((rawsOf ops roads trees buf).map (fun r => r.s_co2))
          ((rawsOf ops roads trees buf).map (fun r => r.s_bio))) := rfl

lemma calculate_rows (ops : GeoOps) (roads : RoadsDF) (trees : TreesDF) (buf : ℤ) :
    (calculate_environmental_scores ops roads trees buf).rows =
      scoreRows ops roads (workingTrees ops roads trees).rows buf := rfl

lemma calculate_roads_after (ops : GeoOps) (roads : RoadsDF) (trees : TreesDF) (buf : ℤ) :
    (calculate_environmental_scores ops roads trees buf).roads_after = roads := rfl

lemma scoreRows_ids (ops : GeoOps) (roads : RoadsDF) (trees : List TreeRow) (buf : ℤ) :
    (scoreRows ops roads trees buf).map (fun r => r.segment_id) =
      roads.rows.map (fun r => r.segment_id) := by
  rw [scoreRows_eq, rawsOf, List.map_map, List.map_map]
  rfl

lemma scoreRows_length (ops : GeoOps) (roads : RoadsDF) (trees : List TreeRow) (buf : ℤ) :
    (scoreRows ops roads trees buf).length = roads.rows.length := by
  rw [scoreRows_eq, rawsOf]
  simp

/-! ## Counting lemmas for the percentile rank -/

lemma length_filter_mono {α : Type} (p q : α → Bool) (xs : List α)
    (h : ∀ y ∈ xs, p y = true → q y = true) :
    (xs.filter p).length ≤ (xs.filter q).length := by
  induction xs with
  | nil => simp
  | cons a l ih =>
    have ih2 := ih (fun y hy hp => h y (List.mem_cons_of_mem a hy) hp)
    cases hp : p a with
    | true =>
      have hq := h a (List.mem_cons_self a l) hp
      simp only [List.filter_cons, hp, hq, if_true, List.length_cons]
      omega
    | false =>
      cases hq : q a <;>
        simp [List.filter_cons, hp, hq] <;>
        omega

lemma length_filter_add_disjoint {α : Type} (p q : α → Bool) (xs : List α)
    (h : ∀ y ∈ xs, ¬(p y = true ∧ q y = true)) :
    (xs.filter p).length + (xs.filter q).length =
      (xs.filter (fun y => p y || q y)).length := by
  induction xs with
  | nil => simp
  | cons a l ih =>
    have ih2 := ih (fun y hy => h y (List.mem_cons_of_mem a hy))
    have ha := h a (List.mem_cons_self a l)
    cases hp : p a with
    | true =>
      have hq : q a = false := by
        cases h1 : q a with
        | true => exact absurd ⟨hp, h1⟩ ha
        | false => rfl
      simp [List.filter_cons, hp, hq]
      omega
    | false =>
      cases hq : q a <;>
        simp [List.filter_cons, hp, hq] <;>
        omega

lemma length_filter_of_all {α : Type} (p : α → Bool) (xs : List α)
    (h : ∀ y ∈ xs, p y = true) : (xs.filter p).length = xs.length := by
  rw [List.filter_eq_self.mpr h]

lemma pctRankQ_tie_pos (xs : List ℚ) (x : ℚ) (hx : x ∈ xs) :
    0 < (xs.filter (fun y => decide (y = x))).length := by
  apply List.length_pos.mpr
  intro hnil
  have : x ∈ xs.filter (fun y => decide (y = x)) := by
    rw [List.mem_filter]
    exact ⟨hx, by simp⟩
  rw [hnil] at this
  exact List.not_mem_nil x this

lemma pctRankQ_pos (xs : List ℚ) (x : ℚ) (hx : x ∈ xs) : 0 < pctRankQ xs x := by
  have hn : 0 < (xs.length : ℚ) := by
    have := List.length_pos_of_mem hx
    exact_mod_cast this
  have ht : 0 < ((xs.filter (fun y => decide (y = x))).length : ℚ) := by
    exact_mod_cast pctRankQ_tie_pos xs x hx
  have hl : 0 ≤ ((xs.filter (fun y => decide (y < x))).length : ℚ) := by positivity
  apply div_pos _ hn
  nlinarith

lemma pctRankQ_counts_le (xs : List ℚ) (x : ℚ) :
    (xs.filter (fun y => decide (y < x))).length +
      (xs.filter (fun y => decide (y = x))).length ≤ xs.length := by
  rw [length_filter_add_disjoint (fun y => decide (y < x)) (fun y => decide (y = x)) xs
    (by intro y _ hy; rcases hy with ⟨h1, h2⟩; simp at h1 h2; exact absurd h2 (ne_of_lt h1))]
  exact List.length_filter_le _ xs

lemma pctRankQ_le_one (xs : List ℚ) (x : ℚ) (hx : x ∈ xs) : pctRankQ xs x ≤ 1 := by
  have hn : 0 < (xs.length : ℚ) := by
    have := List.length_pos_of_mem hx
    exact_mod_cast this
  rw [pctRankQ, div_le_one hn]
  have ht : (1 : ℚ) ≤ ((xs.filter (fun y => decide (y = x))).length : ℚ) := by
    have := pctRankQ_tie_pos xs x hx
    exact_mod_cast this
  have hc : ((xs.filter (fun y => decide (y < x))).length : ℚ) +
      ((xs.filter (fun y => decide (y = x))).length : ℚ) ≤ (xs.length : ℚ) := by
    exact_mod_cast pctRankQ_counts_le xs x
  nlinarith

lemma pctRankQ_max_eq_one (xs : List ℚ) (x : ℚ) (hx : x ∈ xs)
    (hmax : ∀ y ∈ xs, y ≤ x)
    (huniq : (xs.filter (fun y => decide (y = x))).length = 1) :
    pctRankQ xs x = 1 := by
  have hn : 0 < (xs.length : ℚ) := by
    have := List.length_pos_of_mem hx
    exact_mod_cast this
  have hsplit : (xs.filter (fun y => decide (y < x))).length +
      (xs.filter (fun y => decide (y = x))).length = xs.length := by
    rw [length_filter_add_disjoint (fun y => decide (y < x)) (fun y => decide (y = x)) xs
      (by intro y _ hy; rcases hy with ⟨h1, h2⟩; simp at h1 h2; exact absurd h2 (ne_of_lt h1))]
    apply length_filter_of_all
    intro y hy
    have := hmax y hy
    simp only [Bool.or_eq_true, decide_eq_true_eq]
    exact lt_or_eq_of_le this
  have hx1 : 1 ≤ xs.length := List.length_pos_of_mem hx
  have hless : ((xs.filter (fun y => decide (y < x))).length : ℚ) = (xs.length : ℚ) - 1 := by
    have hnat : (xs.filter (fun y => decide (y < x))).length = xs.length - 1 := by omega
    rw [hnat, Nat.cast_sub hx1]
    simp
  rw [pctRankQ, hless, huniq]
  push_cast
  field_simp

lemma pctRankQ_mono (xs : List ℚ) (x₁ x₂ : ℚ) (h1 : x₁ ∈ xs) (h2 : x₂ ∈ xs)
    (hle : x₁ ≤ x₂) : pctRankQ xs x₁ ≤ pctRankQ xs x₂ := by
  rcases eq_or_lt_of_le hle with heq | hlt
  · rw [heq]
  · have hn : 0 < (xs.length : ℚ) := by
      have := List.length_pos_of_mem h1
      exact_mod_cast this
    rw [pctRankQ, pctRankQ, div_le_div_iff_of_pos_right hn]
    have hsub : (xs.filter (fun y => decide (y < x₁))).length +
        (xs.filter (fun y => decide (y = x₁))).length ≤
        (xs.filter (fun y => decide (y < x₂))).length := by
      rw [length_filter_add_disjoint (fun y => decide (y < x₁)) (fun y => decide (y = x₁)) xs
        (by intro y _ hy; rcases hy with ⟨ha, hb⟩; simp at ha hb; exact absurd hb (ne_of_lt ha))]
      apply length_filter_mono
      intro y _ hy
      simp only [Bool.or_eq_true, decide_eq_true_eq] at hy ⊢
      rcases hy with ha | hb
      · exact lt_trans ha hlt
      · exact hb ▸ hlt
    have ht1 : (1 : ℚ) ≤ ((xs.filter (fun y => decide (y = x₁))).length : ℚ) := by
      exact_mod_cast pctRankQ_tie_pos xs x₁ h1
    have ht2 : (1 : ℚ) ≤ ((xs.filter (fun y => decide (y = x₂))).length : ℚ) := by
      exact_mod_cast pctRankQ_tie_pos xs x₂ h2
    have hsubq : ((xs.filter (fun y => decide (y < x₁))).length : ℚ) +
        ((xs.filter (fun y => decide (y = x₁))).length : ℚ) ≤
        ((xs.filter (fun y => decide (y < x₂))).length : ℚ) := by
      exact_mod_cast hsub
    nlinarith

lemma filter_map_comm {α β : Type} (f : α → β) (p : β → Bool) (l : List α) :
    (l.map f).filter p = (l.filter (fun a => p (f a))).map f := by
  induction l with
  | nil => rfl
  | cons a t ih => cases hp : p (f a) <;> simp [List.filter_cons, hp, ih]

/-- On an all-numeric column, the pandas percentile rank is exactly the
specification's tie-averaged fraction `pctRankQ`. -/
lemma rankPct_map_num (qs : List ℚ) (q : ℚ) :
    rankPct (qs.map FVal.num) (FVal.num q) = FVal.num (pctRankQ qs q) := by
  have hnn : (qs.map FVal.num).filter (fun w => decide (w ≠ FVal.nan)) = qs.map FVal.num := by
    apply List.filter_eq_self.mpr
    intro w hw
    rcases List.mem_map.mp hw with ⟨a, _, rfl⟩
    simp
  rw [rankPct, if_neg (by simp), hnn, filter_map_comm, filter_map_comm,
    List.length_map, List.length_map, List.length_map]
  have hlt : qs.filter (fun a => fvalLt (FVal.num a) (FVal.num q)) =
      qs.filter (fun a => decide (a < q)) := rfl
  have heq : qs.filter (fun a => decide (FVal.num a = FVal.num q)) =
      qs.filter (fun a => decide (a = q)) := by
    apply List.filter_congr
    intro a _
    by_cases h : a = q <;> simp [h]
  rw [hlt, heq, pctRankQ]

lemma rawRow_s_canopy_num (ops : GeoOps) (joined : List (TreeRow × ℤ)) (buf : ℤ)
    (r : RoadRow) (hb : ops.bufferArea r.geometry buf ≠ 0) :
    (rawRow ops joined buf r).s_canopy = FVal.num (canopyKernel ops joined buf r) := by
  show fdiv (mergedAgg ops joined r.segment_id).1 (ops.bufferArea r.geometry buf) = _
  rw [fdiv_of_ne_zero _ _ hb, canopyKernel]

lemma rawRow_s_co2_num (ops : GeoOps) (joined : List (TreeRow × ℤ)) (buf : ℤ)
    (r : RoadRow) (hl : ops.segLength r.geometry ≠ 0) :
    (rawRow ops joined buf r).s_co2 = FVal.num (co2Kernel ops joined r) := by
  show fdiv (mergedAgg ops joined r.segment_id).2.1 (ops.segLength r.geometry) = _
  rw [fdiv_of_ne_zero _ _ hl, co2Kernel]

lemma rawRow_s_bio_num (ops : GeoOps) (joined : List (TreeRow × ℤ)) (buf : ℤ)
    (r : RoadRow) :
    (rawRow ops joined buf r).s_bio = FVal.num (bioKernel ops joined r) := rfl

lemma percentileNormalized_intro (qs : List ℚ) (raws norms : List FVal)
    (h1 : raws = qs.map FVal.num)
    (h2 : norms = qs.map (fun q => FVal.num (pctRankQ qs q))) :
    percentileNormalized raws norms :=
  ⟨qs, h1, h2,
    fun q hq => ⟨pctRankQ_pos qs q hq, pctRankQ_le_one qs q hq⟩,
    fun q hq hmax huniq => pctRankQ_max_eq_one qs q hq hmax huniq,
    fun p hp q hq hle => pctRankQ_mono qs p q hp hq hle⟩

lemma scoreRows_canopy_normalized (ops : GeoOps) (roads : RoadsDF)
    (trees : List TreeRow) (buf : ℤ)
    (hb : ∀ r ∈ roads.rows, ops.bufferArea r.geometry buf ≠ 0) :
    percentileNormalized
      ((scoreRows ops roads trees buf).map (fun r => r.s_canopy))
      ((scoreRows ops roads trees buf).map (fun r => r.s_canopy_norm)) := by
  apply percentileNormalized_intro
    (roads.rows.map (canopyKernel ops (sjoinPairs ops trees roads.rows buf) buf))
  · simp only [scoreRows_eq, rawsOf, List.map_map]
    apply List.map_congr_left
    intro r hr
    simp only [Function.comp_apply, finishRow_s_canopy]
    exact rawRow_s_canopy_num ops _ buf r (hb r hr)
  · have hcol : (rawsOf ops roads trees buf).map (fun r => r.s_canopy) =
        (roads.rows.map (canopyKernel ops (sjoinPairs ops trees roads.rows buf) buf)).map
          FVal.num := by
      simp only [rawsOf, List.map_map]
      apply List.map_congr_left
      intro r hr
      simp only [Function.comp_apply]
      exact rawRow_s_canopy_num ops _ buf r (hb r hr)
    simp only [scoreRows_eq, List.map_map]
    have hstep : ∀ row ∈ rawsOf ops roads trees buf,
        ((fun r => r.s_canopy_norm) ∘
          finishRow ((rawsOf ops roads trees buf).map (fun r => r.s_canopy))
            ((rawsOf ops roads trees buf).map (fun r => r.s_co2))
            ((rawsOf ops roads trees buf).map (fun r => r.s_bio))) row =
          rankPct
            ((roads.rows.map (canopyKernel ops (sjoinPairs ops trees roads.rows buf) buf)).map
              FVal.num) row.s_canopy := by
      intro row _
      simp only [Function.comp_apply, finishRow_s_canopy_norm, hcol]
    rw [List.map_congr_left hstep]
    simp only [rawsOf, List.map_map]
    apply List.map_congr_left
    intro r hr
    simp only [Function.comp_apply]
    rw [rawRow_s_canopy_num ops _ buf r (hb r hr), ← List.map_map, rankPct_map_num]

lemma scoreRows_co2_normalized (ops : GeoOps) (roads : RoadsDF)
    (trees : List TreeRow) (buf : ℤ)
    (hl : ∀ r ∈ roads.rows, ops.segLength r.geometry ≠ 0) :
    percentileNormalized
      ((scoreRows ops roads trees buf).map (fun r => r.s_co2))
      ((scoreRows ops roads trees buf).map (fun r => r.s_co2_norm)) := by
  apply percentileNormalized_intro
    (roads.rows.map (co2Kernel ops (sjoinPairs ops trees roads.rows buf)))
  · simp only [scoreRows_eq, rawsOf, List.map_map]
    apply List.map_congr_left
    intro r hr
    simp only [Function.comp_apply, finishRow_s_co2]
    exact rawRow_s_co2_num ops _ buf r (hl r hr)
  · have hcol : (rawsOf ops roads trees buf).map (fun r => r.s_co2) =
        (roads.rows.map (co2Kernel ops (sjoinPairs ops trees roads.rows buf))).map
          FVal.num := by
      simp only [rawsOf, List.map_map]
      apply List.map_congr_left
      intro r hr
      simp only [Function.comp_apply]
      exact rawRow_s_co2_num ops _ buf r (hl r hr)
    simp only [scoreRows_eq, List.map_map]
    have hstep : ∀ row ∈ rawsOf ops roads trees buf,
        ((fun r => r.s_co2_norm) ∘
          finishRow ((rawsOf ops roads trees buf).map (fun r => r.s_canopy))
            ((rawsOf ops roads trees buf).map (fun r => r.s_co2))
            ((rawsOf ops roads trees buf).map (fun r => r.s_bio))) row =
          rankPct
            ((roads.rows.map (co2Kernel ops (sjoinPairs ops trees roads.rows buf))).map
              FVal.num) row.s_co2 := by
      intro row _
      simp only [Function.comp_apply, finishRow_s_co2_norm, hcol]
    rw [List.map_congr_left hstep]
    simp only [rawsOf, List.map_map]
    apply List.map_congr_left
    intro r hr
    simp only [Function.comp_apply]
    rw [rawRow_s_co2_num ops _ buf r (hl r hr), ← List.map_map, rankPct_map_num]

lemma scoreRows_bio_normalized (ops : GeoOps) (roads : RoadsDF)
    (trees : List TreeRow) (buf : ℤ) :
    percentileNormalized
      ((scoreRows ops roads trees buf).map (fun r => r.s_bio))
      ((scoreRows ops roads trees buf).map (fun r => r.s_bio_norm)) := by
  apply percentileNormalized_intro
    (roads.rows.map (bioKernel ops (sjoinPairs ops trees roads.rows buf)))
  · simp only [scoreRows_eq, rawsOf, List.map_map]
    apply List.map_congr_left
    intro r hr
    simp only [Function.comp_apply, finishRow_s_bio]
    exact rawRow_s_bio_num ops _ buf r
  · have hcol : (rawsOf ops roads trees buf).map (fun r => r.s_bio) =
        (roads.rows.map (bioKernel ops (sjoinPairs ops trees roads.rows buf))).map
          FVal.num := by
      simp only [rawsOf, List.map_map]
      apply List.map_congr_left
      intro r hr
      simp only [Function.comp_apply]
      exact rawRow_s_bio_num ops _ buf r
    simp only [scoreRows_eq, List.map_map]
    have hstep : ∀ row ∈ rawsOf ops roads trees buf,
        ((fun r => r.s_bio_norm) ∘
          finishRow ((rawsOf ops roads trees buf).map (fun r => r.s_canopy))
            ((rawsOf ops roads trees buf).map (fun r => r.s_co2))
            ((rawsOf ops roads trees buf).map (fun r => r.s_bio))) row =
          rankPct
            ((roads.rows.map (bioKernel ops (sjoinPairs ops trees roads.rows buf))).map
              FVal.num) row.s_bio := by
      intro row _
      simp only [Function.comp_apply, finishRow_s_bio_norm, hcol]
    rw [List.map_congr_left hstep]
    simp only [rawsOf, List.map_map]
    apply List.map_congr_left
    intro r hr
    simp only [Function.comp_apply]
    rw [rawRow_s_bio_num ops _ buf r, ← List.map_map, rankPct_map_num]

lemma fdiv_by_zero_not_num (a : ℚ) : isNum (fdiv a 0) = false := by
  rw [fdiv, if_pos rfl]
  by_cases h : a = 0
  · rw [if_pos h]; rfl
  · rw [if_neg h]
    by_cases h2 : 0 < a
    · rw [if_pos h2]; rfl
    · rw [if_neg h2]; rfl

lemma mergedAgg_no_join (ops : GeoOps) (joined : List (TreeRow × ℤ)) (sid : ℤ)
    (h : ∀ p ∈ joined, p.2 ≠ sid) : mergedAgg ops joined sid = (0, 0, 0) := by
  rw [mergedAgg, if_neg]
  intro hany
  rcases List.any_eq_true.mp hany with ⟨p, hp, hd⟩
  exact h p hp (of_decide_eq_true hd)

lemma rawsOf_canopy_col (ops : GeoOps) (roads : RoadsDF) (trees : List TreeRow)
    (buf : ℤ) (hb : ∀ r ∈ roads.rows, ops.bufferArea r.geometry buf ≠ 0) :
    (rawsOf ops roads trees buf).map (fun r => r.s_canopy) =
      (roads.rows.map (canopyKernel ops (sjoinPairs ops trees roads.rows buf) buf)).map
        FVal.num := by
  simp only [rawsOf, List.map_map]
  apply List.map_congr_left
  intro r hr
  simp only [Function.comp_apply]
  exact rawRow_s_canopy_num ops _ buf r (hb r hr)

lemma rawsOf_co2_col (ops : GeoOps) (roads : RoadsDF) (trees : List TreeRow)
    (buf : ℤ) (hl : ∀ r ∈ roads.rows, ops.segLength r.geometry ≠ 0) :
    (rawsOf ops roads trees buf).map (fun r => r.s_co2) =
      (roads.rows.map (co2Kernel ops (sjoinPairs ops trees roads.rows buf))).map
        FVal.num := by
  simp only [rawsOf, List.map_map]
  apply List.map_congr_left
  intro r hr
  simp only [Function.comp_apply]
  exact rawRow_s_co2_num ops _ buf r (hl r hr)

lemma rawsOf_bio_col (ops : GeoOps) (roads : RoadsDF) (trees : List TreeRow)
    (buf : ℤ) :
    (rawsOf ops roads trees buf).map (fun r => r.s_bio) =
      (roads.rows.map (bioKernel ops (sjoinPairs ops trees roads.rows buf))).map
        FVal.num := by
  simp only [rawsOf, List.map_map]
  apply List.map_congr_left
  intro r hr
  simp only [Function.comp_apply]
  exact rawRow_s_bio_num ops _ buf r

lemma scoreRows_get (ops : GeoOps) (roads : RoadsDF) (trees : List TreeRow) (buf : ℤ)
    (i : ℕ) (hi : i < roads.rows.length)
    (hi2 : i < (scoreRows ops roads trees buf).length) :
    (scoreRows ops roads trees buf).get ⟨i, hi2⟩ =
      finishRow ((rawsOf ops roads trees buf).map (fun r => r.s_canopy))
        ((rawsOf ops roads trees buf).map (fun r => r.s_co2))
        ((rawsOf ops roads trees buf).map (fun r => r.s_bio))
        (rawRow ops (sjoinPairs ops trees roads.rows buf) buf
          (roads.rows.get ⟨i, hi⟩)) := by
  simp only [List.get_eq_getElem, scoreRows_eq, rawsOf, List.getElem_map]

lemma scoreRows_geoms (ops : GeoOps) (roads : RoadsDF) (trees : List TreeRow) (buf : ℤ) :
    (scoreRows ops roads trees buf).map (fun r => r.geometry) =
      roads.rows.map (fun r => r.geometry) := by
  rw [scoreRows_eq, rawsOf, List.map_map, List.map_map]
  rfl

lemma rawRow_zero_join (ops : GeoOps) (joined : List (TreeRow × ℤ)) (buf : ℤ)
    (r : RoadRow) (hjoin : ∀ p ∈ joined, p.2 ≠ r.segment_id)
    (harea : ops.bufferArea r.geometry buf ≠ 0)
    (hlen : ops.segLength r.geometry ≠ 0) (hlog : ops.log1p 0 = 0) :
    (rawRow ops joined buf r).s_canopy = FVal.num 0 ∧
    (rawRow ops joined buf r).s_co2 = FVal.num 0 ∧
    (rawRow ops joined buf r).s_bio = FVal.num 0 := by
  have hagg := mergedAgg_no_join ops joined r.segment_id hjoin
  refine ⟨?_, ?_, ?_⟩
  · show fdiv (mergedAgg ops joined r.segment_id).1 (ops.bufferArea r.geometry buf) = _
    rw [hagg, fdiv_of_ne_zero _ _ harea]
    norm_num
  · show fdiv (mergedAgg ops joined r.segment_id).2.1 (ops.segLength r.geometry) = _
    rw [hagg, fdiv_of_ne_zero _ _ hlen]
    norm_num
  · show FVal.num (ops.log1p (mergedAgg ops joined r.segment_id).2.2) = _
    rw [hagg]
    show FVal.num (ops.log1p 0) = _
    rw [hlog]

/-- C1: for a roads input with unique `segment_id` values (and any trees
input), `calculate_environmental_scores` returns exactly one row per
input road segment, keyed by `segment_id`: the output row count equals
the input row count and each input segment id occurs exactly once among
the output rows — no segment is dropped, even with zero joined trees,
and none is duplicated. -/
theorem output_one_row_per_segment (ops : GeoOps) (roads : RoadsDF)
    (trees : TreesDF) (buf : ℤ)
    (huniq : (roads.rows.map (fun r => r.segment_id)).Nodup) :
    (calculate_environmental_scores ops roads trees buf).rows.length =
      roads.rows.length ∧
    ∀ r ∈ roads.rows,
      ((calculate_environmental_scores ops roads trees buf).rows.map
        (fun s => s.segment_id)).count r.segment_id = 1 := by
  constructor
  · rw [calculate_rows, scoreRows_length]
  · intro r hr
    rw [calculate_rows, scoreRows_ids]
    exact List.count_eq_one_of_mem huniq (List.mem_map_of_mem _ hr)

/-- C1 witness at a concrete input. -/
theorem output_one_row_per_segment_witness :
    (((RoadsDF.mk "EPSG:32643" [⟨1, [(100, 2000)]⟩, ⟨2, [(200, 1000)]⟩]).rows.map
      (fun r => r.segment_id)).Nodup) ∧
    ((calculate_environmental_scores
        ⟨3, fun n => (n : ℚ), fun g => (List.headD g (0, 0)).1,
          fun g _ => (List.headD g (0, 0)).2,
          fun p g _ => decide (p.1 = (List.headD g (0, 0)).1), fun p _ _ => p⟩
        (RoadsDF.mk "EPSG:32643" [⟨1, [(100, 2000)]⟩, ⟨2, [(200, 1000)]⟩])
        (TreesDF.mk "EPSG:32643"
          [⟨10, 50, "Ficus religiosa", (100, 2)⟩] none) 10).rows.length =
      (RoadsDF.mk "EPSG:32643" [⟨1, [(100, 2000)]⟩, ⟨2, [(200, 1000)]⟩]).rows.length ∧
    ∀ r ∈ (RoadsDF.mk "EPSG:32643" [⟨1, [(100, 2000)]⟩, ⟨2, [(200, 1000)]⟩]).rows,
      ((calculate_environmental_scores
        ⟨3, fun n => (n : ℚ), fun g => (List.headD g (0, 0)).1,
          fun g _ => (List.headD g (0, 0)).2,
          fun p g _ => decide (p.1 = (List.headD g (0, 0)).1), fun p _ _ => p⟩
        (RoadsDF.mk "EPSG:32643" [⟨1, [(100, 2000)]⟩, ⟨2, [(200, 1000)]⟩])
        (TreesDF.mk "EPSG:32643"
          [⟨10, 50, "Ficus religiosa", (100, 2)⟩] none) 10).rows.map
        (fun s => s.segment_id)).count r.segment_id = 1) :=
  ⟨by decide, output_one_row_per_segment _ _ _ 10 (by decide)⟩

/-- C10: the left merge keeps the roads' input row order, so output rows
appear in the same order (and with the same geometries) as the input
road rows. -/
theorem output_preserves_input_order (ops : GeoOps) (roads : RoadsDF)
    (trees : TreesDF) (buf : ℤ)
    (huniq : (roads.rows.map (fun r => r.segment_id)).Nodup) :
    (calculate_environmental_scores ops roads trees buf).rows.map
      (fun r => r.segment_id) = roads.rows.map (fun r => r.segment_id) ∧
    (calculate_environmental_scores ops roads trees buf).rows.map
      (fun r => r.geometry) = roads.rows.map (fun r => r.geometry) := by
  constructor
  · rw [calculate_rows, scoreRows_ids]
  · rw [calculate_rows, scoreRows_geoms]

/-- C10 witness at a concrete input. -/
theorem output_preserves_input_order_witness :
    ((wRoads.rows.map (fun r => r.segment_id)).Nodup) ∧
    ((calculate_environmental_scores wOps wRoads wTrees 10).rows.map
      (fun r => r.segment_id) = wRoads.rows.map (fun r => r.segment_id) ∧
    (calculate_environmental_scores wOps wRoads wTrees 10).rows.map
      (fun r => r.geometry) = wRoads.rows.map (fun r => r.geometry)) :=
  ⟨by decide, output_preserves_input_order wOps wRoads wTrees 10 (by decide)⟩

/-- C8: the pipeline is a pure function of its inputs — two invocations
of `calculate_environmental_scores` on identical inputs produce
identical results (there is no hidden random or persistent state in the
embedding; every step is a deterministic data transform). -/
theorem pipeline_deterministic (ops : GeoOps) (roads : RoadsDF) (trees : TreesDF)
    (buf : ℤ) :
    calculate_environmental_scores ops roads trees buf =
      calculate_environmental_scores ops roads trees buf := rfl

/-- C2: a segment of positive length and positive buffer area with zero
joined trees gets raw scores `s_canopy = 0`, `s_co2 = 0` and
`s_bio = log1p 0 = 0`: the left merge's missing aggregates are filled
with `0`, not dropped or left null. -/
theorem zero_join_segment_has_zero_raw_scores (ops : GeoOps) (roads : RoadsDF)
    (trees : TreesDF) (buf : ℤ) (i : ℕ) (hi : i < roads.rows.length)
    (hi2 : i < (calculate_environmental_scores ops roads trees buf).rows.length)
    (hlen : 0 < ops.segLength (roads.rows.get ⟨i, hi⟩).geometry)
    (harea : 0 < ops.bufferArea (roads.rows.get ⟨i, hi⟩).geometry buf)
    (hlog : ops.log1p 0 = 0)
    (hjoin : ∀ p ∈ sjoinPairs ops (workingTrees ops roads trees).rows roads.rows buf,
      p.2 ≠ (roads.rows.get ⟨i, hi⟩).segment_id) :
    ((calculate_environmental_scores ops roads trees buf).rows.get ⟨i, hi2⟩).s_canopy
        = FVal.num 0 ∧
    ((calculate_environmental_scores ops roads trees buf).rows.get ⟨i, hi2⟩).s_co2
        = FVal.num 0 ∧
    ((calculate_environmental_scores ops roads trees buf).rows.get ⟨i, hi2⟩).s_bio
        = FVal.num 0 := by
  have main :
      ((scoreRows ops roads (workingTrees ops roads trees).rows buf).get
        ⟨i, hi2⟩).s_canopy = FVal.num 0 ∧
      ((scoreRows ops roads (workingTrees ops roads trees).rows buf).get
        ⟨i, hi2⟩).s_co2 = FVal.num 0 ∧
      ((scoreRows ops roads (workingTrees ops roads trees).rows buf).get
        ⟨i, hi2⟩).s_bio = FVal.num 0 := by
    rw [scoreRows_get ops roads (workingTrees ops roads trees).rows buf i hi hi2]
    rw [finishRow_s_canopy, finishRow_s_co2, finishRow_s_bio]
    exact rawRow_zero_join ops _ buf _ hjoin (ne_of_gt harea) (ne_of_gt hlen) hlog
  exact main

/-- C2 witness: segment 2 of `wRoads` joins no tree of `wTrees`. -/
theorem zero_join_segment_has_zero_raw_scores_witness :
    (0 < wOps.segLength (wRoads.rows.get ⟨1, by decide⟩).geometry) ∧
    (0 < wOps.bufferArea (wRoads.rows.get ⟨1, by decide⟩).geometry 10) ∧
    (wOps.log1p 0 = 0) ∧
    (∀ p ∈ sjoinPairs wOps (workingTrees wOps wRoads wTrees).rows wRoads.rows 10,
      p.2 ≠ (wRoads.rows.get ⟨1, by decide⟩).segment_id) ∧
    (((calculate_environmental_scores wOps wRoads wTrees 10).rows.get
        ⟨1, by decide⟩).s_canopy = FVal.num 0 ∧
      ((calculate_environmental_scores wOps wRoads wTrees 10).rows.get
        ⟨1, by decide⟩).s_co2 = FVal.num 0 ∧
      ((calculate_environmental_scores wOps wRoads wTrees 10).rows.get
        ⟨1, by decide⟩).s_bio = FVal.num 0) :=
  ⟨by decide, by decide, by decide, by decide,
    zero_join_segment_has_zero_raw_scores wOps wRoads wTrees 10 1 (by decide)
      (by decide) (by decide) (by decide) (by decide) (by decide)⟩

/-- C3 counterexample: on a degenerate segment with zero buffer area and
zero length (and no joined trees) the divisions at lines 52–53 of the
source are NOT guarded: `s_canopy` and `s_co2` both come out NaN (0/0),
not the claimed raw score 0. -/
theorem division_by_zero_counterexample :
    (calculate_environmental_scores wOps zRoads zTrees 10).rows.map
      (fun r => r.s_canopy) = [FVal.nan] ∧
    (calculate_environmental_scores wOps zRoads zTrees 10).rows.map
      (fun r => r.s_co2) = [FVal.nan] := by decide

/-- C3 amended: the two raw-score divisions carry no zero guard; a
segment whose buffer area is zero gets a non-numeric `s_canopy` (NaN or
a signed infinity) and a segment whose geometry length is zero gets a
non-numeric `s_co2` — degenerate segments are not scored 0. -/
theorem division_by_zero_unguarded (ops : GeoOps) (roads : RoadsDF)
    (trees : TreesDF) (buf : ℤ) (i : ℕ) (hi : i < roads.rows.length)
    (hi2 : i < (calculate_environmental_scores ops roads trees buf).rows.length)
    (harea : ops.bufferArea (roads.rows.get ⟨i, hi⟩).geometry buf = 0)
    (hlen : ops.segLength (roads.rows.get ⟨i, hi⟩).geometry = 0) :
    isNum (((calculate_environmental_scores ops roads trees buf).rows.get
      ⟨i, hi2⟩).s_canopy) = false ∧
    isNum (((calculate_environmental_scores ops roads trees buf).rows.get
      ⟨i, hi2⟩).s_co2) = false := by
  have main :
      isNum (((scoreRows ops roads (workingTrees ops roads trees).rows buf).get
        ⟨i, hi2⟩).s_canopy) = false ∧
      isNum (((scoreRows ops roads (workingTrees ops roads trees).rows buf).get
        ⟨i, hi2⟩).s_co2) = false := by
    rw [scoreRows_get ops roads (workingTrees ops roads trees).rows buf i hi hi2]
    rw [finishRow_s_canopy, finishRow_s_co2]
    constructor
    · show isNum (fdiv _ (ops.bufferArea (roads.rows.get ⟨i, hi⟩).geometry buf)) = false
      rw [harea]
      exact fdiv_by_zero_not_num _
    · show isNum (fdiv _ (ops.segLength (roads.rows.get ⟨i, hi⟩).geometry)) = false
      rw [hlen]
      exact fdiv_by_zero_not_num _
  exact main

/-- C3 amended witness at the degenerate fixture. -/
theorem division_by_zero_unguarded_witness :
    (wOps.bufferArea (zRoads.rows.get ⟨0, by decide⟩).geometry 10 = 0) ∧
    (wOps.segLength (zRoads.rows.get ⟨0, by decide⟩).geometry = 0) ∧
    (isNum (((calculate_environmental_scores wOps zRoads zTrees 10).rows.get
        ⟨0, by decide⟩).s_canopy) = false ∧
      isNum (((calculate_environmental_scores wOps zRoads zTrees 10).rows.get
        ⟨0, by decide⟩).s_co2) = false) :=
  ⟨by decide, by decide,
    division_by_zero_unguarded wOps zRoads zTrees 10 0 (by decide) (by decide)
      (by decide) (by decide)⟩

/-- C4 counterexample: with a zero-length segment in the input, the raw
`s_co2` of that segment is NaN and its percentile-rank normalisation is
NaN as well — not a fraction in `(0, 1]` as claimed for every non-empty
segment collection. -/
theorem normalization_nan_counterexample :
    (calculate_environmental_scores wOps zRoads zTrees 10).rows.map
      (fun r => r.s_co2_norm) = [FVal.nan] := by decide

/-- C4 amended: provided every segment has nonzero buffer area and
nonzero geometry length (so that no raw score is NaN), each of the
three raw-score columns is percentile-rank normalised exactly as the
specification describes: the normalised value is the tie-averaged
fraction of segments with raw value at most this one's, values lie in
`(0, 1]`, a uniquely maximal raw value maps to exactly 1, and
normalisation is monotone in the raw values. -/
theorem normalization_is_percentile_rank (ops : GeoOps) (roads : RoadsDF)
    (trees : TreesDF) (buf : ℤ) (hne : roads.rows ≠ [])
    (hb : ∀ r ∈ roads.rows, ops.bufferArea r.geometry buf ≠ 0)
    (hl : ∀ r ∈ roads.rows, ops.segLength r.geometry ≠ 0) :
    percentileNormalized
      ((calculate_environmental_scores ops roads trees buf).rows.map
        (fun r => r.s_canopy))
      ((calculate_environmental_scores ops roads trees buf).rows.map
        (fun r => r.s_canopy_norm)) ∧
    percentileNormalized
      ((calculate_environmental_scores ops roads trees buf).rows.map
        (fun r => r.s_co2))
      ((calculate_environmental_scores ops roads trees buf).rows.map
        (fun r => r.s_co2_norm)) ∧
    percentileNormalized
      ((calculate_environmental_scores ops roads trees buf).rows.map
        (fun r => r.s_bio))
      ((calculate_environmental_scores ops roads trees buf).rows.map
        (fun r => r.s_bio_norm)) := by
  rw [calculate_rows]
  exact ⟨scoreRows_canopy_normalized ops roads _ buf hb,
    scoreRows_co2_normalized ops roads _ buf hl,
    scoreRows_bio_normalized ops roads _ buf⟩

/-- C4 amended witness at a concrete input. -/
theorem normalization_is_percentile_rank_witness :
    (wRoads.rows ≠ []) ∧
    (∀ r ∈ wRoads.rows, wOps.bufferArea r.geometry 10 ≠ 0) ∧
    (∀ r ∈ wRoads.rows, wOps.segLength r.geometry ≠ 0) ∧
    (percentileNormalized
      ((calculate_environmental_scores wOps wRoads wTrees 10).rows.map
        (fun r => r.s_canopy))
      ((calculate_environmental_scores wOps wRoads wTrees 10).rows.map
        (fun r => r.s_canopy_norm)) ∧
    percentileNormalized
      ((calculate_environmental_scores wOps wRoads wTrees 10).rows.map
        (fun r => r.s_co2))
      ((calculate_environmental_scores wOps wRoads wTrees 10).rows.map
        (fun r => r.s_co2_norm)) ∧
    percentileNormalized
      ((calculate_environmental_scores wOps wRoads wTrees 10).rows.map
        (fun r => r.s_bio))
      ((calculate_environmental_scores wOps wRoads wTrees 10).rows.map
        (fun r => r.s_bio_norm))) :=
  ⟨by decide, by decide, by decide,
    normalization_is_percentile_rank wOps wRoads wTrees 10 (by decide) (by decide)
      (by decide)⟩

lemma finishRow_static_eqs (c o b : List FVal) (row : ScoredRow) :
    (finishRow c o b row).static_eqs =
      fadd (fadd (fmul (1/2) (rankPct c row.s_canopy))
        (fmul (3/10) (rankPct o row.s_co2)))
        (fmul (1/5) (rankPct b row.s_bio)) := rfl

lemma finishRow_serenity_score (c o b : List FVal) (row : ScoredRow) :
    (finishRow c o b row).serenity_score =
      fadd (fmul (7/10) (rankPct c row.s_canopy))
        (fmul (3/10) (rankPct b row.s_bio)) := rfl

lemma fmul_num (c q : ℚ) : fmul c (FVal.num q) = FVal.num (c * q) := rfl

lemma fadd_num (x y : ℚ) : fadd (FVal.num x) (FVal.num y) = FVal.num (x + y) := rfl

/-- C5 counterexample: with a zero-length segment in the input the
normalised CO2 score of that row is NaN, so `static_eqs` is NaN as
well — not a number in `(0, 1]` as claimed for every output segment. -/
theorem composite_scores_nan_counterexample :
    (calculate_environmental_scores wOps zRoads zTrees 10).rows.map
      (fun r => r.static_eqs) = [FVal.nan] := by decide

/-- C5 amended: provided every segment has nonzero buffer area and
nonzero geometry length (so no NaN reaches the normalisation), every
output row's composites are exactly the fixed weighted sums
`static_eqs = 0.5 a + 0.3 b + 0.2 c` and
`serenity_score = 0.7 a + 0.3 c` of its normalised scores `a`, `b`,
`c`, and both composite values lie in `(0, 1]` (the rational model is
exact, hence within any floating-point tolerance). -/
theorem composite_scores_are_weighted_sums (ops : GeoOps) (roads : RoadsDF)
    (trees : TreesDF) (buf : ℤ)
    (hb : ∀ r ∈ roads.rows, ops.bufferArea r.geometry buf ≠ 0)
    (hl : ∀ r ∈ roads.rows, ops.segLength r.geometry ≠ 0)
    (i : ℕ) (hi : i < roads.rows.length)
    (hi2 : i < (calculate_environmental_scores ops roads trees buf).rows.length) :
    compositeSpec
      (canopyNormQ ops roads (workingTrees ops roads trees).rows buf
        (roads.rows.get ⟨i, hi⟩))
      (co2NormQ ops roads (workingTrees ops roads trees).rows buf
        (roads.rows.get ⟨i, hi⟩))
      (bioNormQ ops roads (workingTrees ops roads trees).rows buf
        (roads.rows.get ⟨i, hi⟩))
      ((calculate_environmental_scores ops roads trees buf).rows.get ⟨i, hi2⟩) := by
  have hmem : roads.rows.get ⟨i, hi⟩ ∈ roads.rows := roads.rows.get_mem _ _
  have hb1 := hb _ hmem
  have hl1 := hl _ hmem
  have hA : rankPct
      ((rawsOf ops roads (workingTrees ops roads trees).rows buf).map
        (fun x => x.s_canopy))
      ((rawRow ops
        (sjoinPairs ops (workingTrees ops roads trees).rows roads.rows buf) buf
        (roads.rows.get ⟨i, hi⟩)).s_canopy) =
      FVal.num (canopyNormQ ops roads (workingTrees ops roads trees).rows buf
        (roads.rows.get ⟨i, hi⟩)) := by
    rw [rawsOf_canopy_col ops roads _ buf hb,
      rawRow_s_canopy_num ops _ buf _ hb1, rankPct_map_num, canopyNormQ]
  have hB : rankPct
      ((rawsOf ops roads (workingTrees ops roads trees).rows buf).map
        (fun x => x.s_co2))
      ((rawRow ops
        (sjoinPairs ops (workingTrees ops roads trees).rows roads.rows buf) buf
        (roads.rows.get ⟨i, hi⟩)).s_co2) =
      FVal.num (co2NormQ ops roads (workingTrees ops roads trees).rows buf
        (roads.rows.get ⟨i, hi⟩)) := by
    rw [rawsOf_co2_col ops roads _ buf hl,
      rawRow_s_co2_num ops _ buf _ hl1, rankPct_map_num, co2NormQ]
  have hC : rankPct
      ((rawsOf ops roads (workingTrees ops roads trees).rows buf).map
        (fun x => x.s_bio))
      ((rawRow ops
        (sjoinPairs ops (workingTrees ops roads trees).rows roads.rows buf) buf
        (roads.rows.get ⟨i, hi⟩)).s_bio) =
      FVal.num (bioNormQ ops roads (workingTrees ops roads trees).rows buf
        (roads.rows.get ⟨i, hi⟩)) := by
    rw [rawsOf_bio_col ops roads _ buf,
      rawRow_s_bio_num ops _ buf _, rankPct_map_num, bioNormQ]
  have ha0 : 0 < canopyNormQ ops roads (workingTrees ops roads trees).rows buf
      (roads.rows.get ⟨i, hi⟩) :=
    pctRankQ_pos _ _ (List.mem_map_of_mem _ hmem)
  have ha1 : canopyNormQ ops roads (workingTrees ops roads trees).rows buf
      (roads.rows.get ⟨i, hi⟩) ≤ 1 :=
    pctRankQ_le_one _ _ (List.mem_map_of_mem _ hmem)
  have hb0 : 0 < co2NormQ ops roads (workingTrees ops roads trees).rows buf
      (roads.rows.get ⟨i, hi⟩) :=
    pctRankQ_pos _ _ (List.mem_map_of_mem _ hmem)
  have hb1q : co2NormQ ops roads (workingTrees ops roads trees).rows buf
      (roads.rows.get ⟨i, hi⟩) ≤ 1 :=
    pctRankQ_le_one _ _ (List.mem_map_of_mem _ hmem)
  have hc0 : 0 < bioNormQ ops roads (workingTrees ops roads trees).rows buf
      (roads.rows.get ⟨i, hi⟩) :=
    pctRankQ_pos _ _ (List.mem_map_of_mem _ hmem)
  have hc1 : bioNormQ ops roads (workingTrees ops roads trees).rows buf
      (roads.rows.get ⟨i, hi⟩) ≤ 1 :=
    pctRankQ_le_one _ _ (List.mem_map_of_mem _ hmem)
  have main : compositeSpec
      (canopyNormQ ops roads (workingTrees ops roads trees).rows buf
        (roads.rows.get ⟨i, hi⟩))
      (co2NormQ ops roads (workingTrees ops roads trees).rows buf
        (roads.rows.get ⟨i, hi⟩))
      (bioNormQ ops roads (workingTrees ops roads trees).rows buf
        (roads.rows.get ⟨i, hi⟩))
      ((scoreRows ops roads (workingTrees ops roads trees).rows buf).get
        ⟨i, hi2⟩) := by
    rw [scoreRows_get ops roads (workingTrees ops roads trees).rows buf i hi hi2]
    refine ⟨?_, ?_, ?_, ?_, ?_, ?_, ?_, ?_, ?_⟩
    · rw [finishRow_s_canopy_norm, hA]
    · rw [finishRow_s_co2_norm, hB]
    · rw [finishRow_s_bio_norm, hC]
    · rw [finishRow_static_eqs, hA, hB, hC, fmul_num, fmul_num, fmul_num,
        fadd_num, fadd_num]
    · rw [finishRow_serenity_score, hA, hC, fmul_num, fmul_num, fadd_num]
    · linarith
    · linarith
    · linarith
    · linarith
  exact main

/-- C5 amended witness at a concrete input. -/
theorem composite_scores_are_weighted_sums_witness :
    (∀ r ∈ wRoads.rows, wOps.bufferArea r.geometry 10 ≠ 0) ∧
    (∀ r ∈ wRoads.rows, wOps.segLength r.geometry ≠ 0) ∧
    (0 < wRoads.rows.length) ∧
    (0 < (calculate_environmental_scores wOps wRoads wTrees 10).rows.length) ∧
    compositeSpec
      (canopyNormQ wOps wRoads (workingTrees wOps wRoads wTrees).rows 10
        (wRoads.rows.get ⟨0, by decide⟩))
      (co2NormQ wOps wRoads (workingTrees wOps wRoads wTrees).rows 10
        (wRoads.rows.get ⟨0, by decide⟩))
      (bioNormQ wOps wRoads (workingTrees wOps wRoads wTrees).rows 10
        (wRoads.rows.get ⟨0, by decide⟩))
      ((calculate_environmental_scores wOps wRoads wTrees 10).rows.get
        ⟨0, by decide⟩) :=
  ⟨by decide, by decide, by decide, by decide,
    composite_scores_are_weighted_sums wOps wRoads wTrees 10 (by decide)
      (by decide) 0 (by decide) (by decide)⟩

/-- C6 counterexample: on a trees input containing a negative
`canopy_dia_m` the pipeline raises nothing — no
`InvalidMeasurementError` exists anywhere in the source — and runs to
completion: it returns one scored row per segment, the negative-diameter
tree is aggregated (species count 1 on segment 1), and the derived
canopy column holds `pi * (-10/2)^2`, a positive area. -/
theorem negative_diameter_no_error_counterexample :
    (calculate_environmental_scores wOps wRoads nTrees 10).rows.length = 2 ∧
    (calculate_environmental_scores wOps wRoads nTrees 10).rows.map
      (fun r => r.s_bio_count) = [1, 0] ∧
    (calculate_environmental_scores wOps wRoads nTrees 10).trees_after.canopy_area_sq_m
      = some [wOps.pi * ((-10 : ℚ) / 2) ^ 2] :=
  ⟨by decide, by decide, rfl⟩

/-- C6 amended: the source performs no measurement validation and
defines no `InvalidMeasurementError`; for every tree — negative
diameters included — the derived canopy area is `pi * (d / 2) ^ 2`,
which is zero exactly for `d = 0` and strictly positive for every
nonzero `d`, so a negative diameter silently contributes a positive
canopy area instead of raising. -/
theorem canopy_area_formula_unvalidated (ops : GeoOps) (roads : RoadsDF)
    (trees : TreesDF) (buf : ℤ) (hpi : 0 < ops.pi)
    (hcrs : roads.crs = trees.crs) :
    (calculate_environmental_scores ops roads trees buf).trees_after.canopy_area_sq_m
      = some (trees.rows.map (fun t => ops.pi * (t.canopy_dia_m / 2) ^ 2)) ∧
    ∀ t ∈ trees.rows,
      (t.canopy_dia_m = 0 → ops.pi * (t.canopy_dia_m / 2) ^ 2 = 0) ∧
      (t.canopy_dia_m ≠ 0 → 0 < ops.pi * (t.canopy_dia_m / 2) ^ 2) := by
  constructor
  · simp [calculate_environmental_scores, workingTrees, hcrs]
  · intro t _
    constructor
    · intro h0
      rw [h0]
      norm_num
    · intro hne
      have hd2 : t.canopy_dia_m / 2 ≠ 0 := by
        intro h
        exact hne (by linarith [div_eq_zero_iff.mp h])
      have h2 : 0 < (t.canopy_dia_m / 2) ^ 2 := by positivity
      exact mul_pos hpi h2

/-- C6 amended witness at a concrete input. -/
theorem canopy_area_formula_unvalidated_witness :
    (0 < wOps.pi) ∧ (wRoads.crs = nTrees.crs) ∧
    ((calculate_environmental_scores wOps wRoads nTrees 10).trees_after.canopy_area_sq_m
      = some (nTrees.rows.map (fun t => wOps.pi * (t.canopy_dia_m / 2) ^ 2)) ∧
    ∀ t ∈ nTrees.rows,
      (t.canopy_dia_m = 0 → wOps.pi * (t.canopy_dia_m / 2) ^ 2 = 0) ∧
      (t.canopy_dia_m ≠ 0 → 0 < wOps.pi * (t.canopy_dia_m / 2) ^ 2)) :=
  ⟨by decide, by decide,
    canopy_area_formula_unvalidated wOps wRoads nTrees 10 (by decide) (by decide)⟩

/-- C7: on a CRS mismatch the pipeline reprojects the trees into the
roads' CRS (never the roads), prints the warning notice, and its scored
rows equal those of running the pipeline on the same roads with the
trees pre-reprojected into the roads' CRS. -/
theorem crs_mismatch_reprojects_trees (ops : GeoOps) (roads : RoadsDF)
    (trees : TreesDF) (buf : ℤ) (hcrs : roads.crs ≠ trees.crs) :
    (calculate_environmental_scores ops roads trees buf).rows =
      (calculate_environmental_scores ops roads
        (to_crs ops trees roads.crs) buf).rows ∧
    "Warning: CRS mismatch. Re-projecting trees to match roads CRS." ∈
      (calculate_environmental_scores ops roads trees buf).messages ∧
    (calculate_environmental_scores ops roads trees buf).roads_after = roads := by
  refine ⟨?_, ?_, rfl⟩
  · rw [calculate_rows, calculate_rows]
    have h1 : workingTrees ops roads trees = to_crs ops trees roads.crs := by
      rw [workingTrees, if_pos hcrs]
    have h2 : workingTrees ops roads (to_crs ops trees roads.crs) =
        to_crs ops trees roads.crs := by
      rw [workingTrees, if_neg]
      simp [to_crs]
    rw [h1, h2]
  · simp [calculate_environmental_scores, hcrs]

/-- C7 witness at a concrete mismatched input. -/
theorem crs_mismatch_reprojects_trees_witness :
    (wRoads.crs ≠ mTrees.crs) ∧
    ((calculate_environmental_scores wOps wRoads mTrees 10).rows =
      (calculate_environmental_scores wOps wRoads
        (to_crs wOps mTrees wRoads.crs) 10).rows ∧
    "Warning: CRS mismatch. Re-projecting trees to match roads CRS." ∈
      (calculate_environmental_scores wOps wRoads mTrees 10).messages ∧
    (calculate_environmental_scores wOps wRoads mTrees 10).roads_after = wRoads) :=
  ⟨by decide, crs_mismatch_reprojects_trees wOps wRoads mTrees 10 (by decide)⟩

/-- C9 counterexample: with matching CRS tags the call mutates the
caller's trees frame in place — line 35 of the source adds the derived
`canopy_area_sq_m` column to `trees_gdf` itself — so the trees input is
not left unchanged. -/
theorem trees_input_mutated_counterexample :
    (calculate_environmental_scores wOps wRoads wTrees 10).trees_after ≠ wTrees := by
  decide

/-- C9 amended: the roads input is never modified; the trees input is
left unchanged when the CRS tags differ (reprojection rebinds the local
name to a fresh frame, shielding the caller's object), but when the CRS
tags match, the derived `canopy_area_sq_m` column is added in place to
the caller's trees frame (its CRS and rows are otherwise untouched). -/
theorem input_frames_after_call (ops : GeoOps) (roads : RoadsDF)
    (trees : TreesDF) (buf : ℤ) :
    (calculate_environmental_scores ops roads trees buf).roads_after = roads ∧
    (roads.crs ≠ trees.crs →
      (calculate_environmental_scores ops roads trees buf).trees_after = trees) ∧
    (roads.crs = trees.crs →
      (calculate_environmental_scores ops roads trees buf).trees_after =
        TreesDF.mk trees.crs trees.rows
          (some (trees.rows.map (fun t => ops.pi * (t.canopy_dia_m / 2) ^ 2)))) := by
  refine ⟨rfl, ?_, ?_⟩
  · intro h
    simp [calculate_environmental_scores, h]
  · intro h
    simp [calculate_environmental_scores, workingTrees, h]

/-- C9 amended witness: both CRS branches at concrete inputs. -/
theorem input_frames_after_call_witness :
    ((calculate_environmental_scores wOps wRoads wTrees 10).roads_after = wRoads) ∧
    (wRoads.crs ≠ mTrees.crs) ∧
    ((calculate_environmental_scores wOps wRoads mTrees 10).trees_after = mTrees) ∧
    (wRoads.crs = wTrees.crs) ∧
    ((calculate_environmental_scores wOps wRoads wTrees 10).trees_after =
      TreesDF.mk wTrees.crs wTrees.rows
        (some (wTrees.rows.map (fun t => wOps.pi * (t.canopy_dia_m / 2) ^ 2)))) :=
  ⟨(input_frames_after_call wOps wRoads wTrees 10).1, by decide,
    (input_frames_after_call wOps wRoads mTrees 10).2.1 (by decide), by decide,
    (input_frames_after_call wOps wRoads wTrees 10).2.2 (by decide)⟩
